import Mathlib

/-!
Shallow embedding of `src/arch/cortex-m/src/syscall.rs`: the Cortex-M
userspace/kernel boundary of the Tock kernel, with the packed-system-call
extension.  Machine words are modelled as `Nat` with explicit `% 2^32`
wrapping, `saturating_add` as a clamped addition, and process memory as a
byte-addressed map `Nat → Nat` (each cell read modulo 256).
-/

namespace CortexMSyscall

/-- `usize::MAX` on the 32-bit Cortex-M targets this file compiles for. -/
def USIZE_MAX : Nat := 2 ^ 32 - 1

/-- Rust `usize::saturating_add` on a 32-bit target. -/
def satAdd (a b : Nat) : Nat := min (a + b) USIZE_MAX

/-- Wrapping (release-mode) 32-bit arithmetic result. -/
def wrap32 (a : Nat) : Nat := a % 2 ^ 32

/-- Wrapping (release-mode) 32-bit subtraction `a - b`. -/
def wrapSub (a b : Nat) : Nat := (a + 2 ^ 32 - b % 2 ^ 32) % 2 ^ 32

/-- Process memory, byte addressed.  A cell holds an arbitrary `Nat`; every
read truncates to a byte, so only the low 8 bits of a cell are meaningful. -/
def Mem : Type := Nat → Nat

/-- Read one byte. -/
def read8 (m : Mem) (a : Nat) : Nat := m a % 256

/-- Write one byte (the raw value is stored; reads truncate). -/
def write8 (m : Mem) (a v : Nat) : Mem := fun x => if x = a then v else m x

/-- Little-endian 16-bit read, as done for the `svc` instruction fetch. -/
def read16 (m : Mem) (a : Nat) : Nat := read8 m a + 2 ^ 8 * read8 m (a + 1)

/-- Little-endian 32-bit (one machine word) read. -/
def read32 (m : Mem) (a : Nat) : Nat :=
  read8 m a + 2 ^ 8 * read8 m (a + 1) + 2 ^ 16 * read8 m (a + 2) +
    2 ^ 24 * read8 m (a + 3)

/-- Little-endian 32-bit (one machine word) write. -/
def write32 (m : Mem) (a v : Nat) : Mem :=
  write8 (write8 (write8 (write8 m a v) (a + 1) (v / 2 ^ 8)) (a + 2) (v / 2 ^ 16))
    (a + 3) (v / 2 ^ 24)

/-- Space for 8 u32s: r0-r3, r12, lr, pc, and xPSR (`SVC_FRAME_SIZE`). -/
def SVC_FRAME_SIZE : Nat := 32

/-- `PackedSyscallErrorPolicy` from the source: what happens when one of the
syscalls within a packed system call fails. -/
inductive PackedSyscallErrorPolicy : Type
  | STOP : PackedSyscallErrorPolicy
  | CONTINUE : PackedSyscallErrorPolicy
deriving DecidableEq, Repr

/-- `impl From<usize> for PackedSyscallErrorPolicy`: 1 is `CONTINUE`,
anything else is `STOP`. -/
def PackedSyscallErrorPolicy.fromUsize (original : Nat) : PackedSyscallErrorPolicy :=
  if original = 1 then .CONTINUE else .STOP

/-- `PackedSyscall`: the in-progress batch bookkeeping (count of remaining
entries, pointer to the next entry's 5-word argument frame, error policy). -/
structure PackedSyscall : Type where
  count_remaining : Nat
  pointer : Nat
  error_policy : PackedSyscallErrorPolicy
deriving DecidableEq, Repr

/-- `CortexMStoredState`: all of the state the kernel keeps for a process
while it is not executing. -/
structure CortexMStoredState : Type where
  regs : List Nat
  yield_pc : Nat
  psr : Nat
  psp : Nat
  packed_syscall : Option PackedSyscall
deriving DecidableEq, Repr

/-- Modelled from the spec: the call-dispatch layer's decoded system call.
Missing from `src/` (it lives in the kernel crate); the spec only needs a
suspend/yield call distinguishable from every other recognized call. -/
inductive Syscall : Type
  | Yield (which address : Nat) : Syscall
  | Other (num a0 a1 a2 a3 : Nat) : Syscall
deriving DecidableEq, Repr

/-- Matches the source's `if let Syscall::Yield { .. }` test. -/
def Syscall.isYield : Syscall → Bool
  | .Yield _ _ => true
  | .Other _ _ _ _ _ => false

/-- `ContextSwitchReason`: why control returned to the kernel. -/
inductive ContextSwitchReason : Type
  | Fault : ContextSwitchReason
  | SyscallFired (s : Syscall) : ContextSwitchReason
  | Interrupted : ContextSwitchReason
deriving DecidableEq, Repr

/-- Modelled from the spec: `Syscall::from_register_arguments` of the kernel
crate is missing from `src/`; the boundary only needs a function that turns a
call number and four argument words into a recognized call or `none`.  It is
kept as a parameter of the operations that use it. -/
def Decode : Type := Nat → Nat → Nat → Nat → Nat → Option Syscall

/-- `next_packed_syscall`, instrumented with the list of byte addresses of
the word reads it performs on process memory (`reads`). -/
structure NPResult : Type where
  reason : Option ContextSwitchReason
  state : CortexMStoredState
  reads : List Nat

/-- `SysCall::next_packed_syscall`: if a batch is pending, bounds-check the
whole remaining batch, read the 5-word entry at the cursor, decode it, and
classify; a yield entry that is not the last entry is a fault. -/
def next_packed_syscall (decode : Decode) (accessible_memory_start app_brk : Nat)
    (state : CortexMStoredState) (m : Mem) : NPResult :=
  match state.packed_syscall with
  | some packed_syscall =>
    if accessible_memory_start ≤ packed_syscall.pointer ∧
        satAdd packed_syscall.pointer
          (wrap32 (packed_syscall.count_remaining * 4 * 5)) ≤ app_brk then
      let svc_num := read32 m packed_syscall.pointer % 256
      let r0 := read32 m (packed_syscall.pointer + 4)
      let r1 := read32 m (packed_syscall.pointer + 8)
      let r2 := read32 m (packed_syscall.pointer + 12)
      let r3 := read32 m (packed_syscall.pointer + 16)
      let reads := [packed_syscall.pointer, packed_syscall.pointer + 4,
        packed_syscall.pointer + 8, packed_syscall.pointer + 12,
        packed_syscall.pointer + 16]
      match decode svc_num r0 r1 r2 r3 with
      | some s =>
        if s.isYield then
          if packed_syscall.count_remaining = 1 then
            ⟨some (.SyscallFired s), state, reads⟩
          else
            ⟨some .Fault, state, reads⟩
        else
          ⟨some (.SyscallFired s), state, reads⟩
      | none => ⟨some .Fault, state, reads⟩
    else
      ⟨some .Fault, state, []⟩
  | none => ⟨none, { state with packed_syscall := none }, []⟩

/-- Modelled from the spec: the kernel crate's `SyscallReturnVariant::Success`
discriminant (a distinguished success code), missing from `src/`. -/
def SyscallReturnVariant_Success : Nat := 128

/-- Modelled from the spec: the kernel crate's
`SyscallReturnVariant::FailureU32` discriminant (the distinguished failure
code written on a `StopOnError` abort), missing from `src/`. -/
def SyscallReturnVariant_FailureU32 : Nat := 1

/-- Modelled from the spec: the kernel crate's `SyscallReturn` value, missing
from `src/`.  The boundary only needs whether it is a success and the four
words its `encode_syscall_return` writes into `r0..r3`. -/
structure SyscallReturn : Type where
  is_success : Bool
  w0 : Nat
  w1 : Nat
  w2 : Nat
  w3 : Nat

/-- Modelled from the spec: `SyscallReturn::encode_syscall_return` writes the
encoded return value verbatim into the four words at `r0..r3`. -/
def encode_syscall_return (rv : SyscallReturn) (m : Mem) (r0_addr : Nat) : Mem :=
  write32 (write32 (write32 (write32 m r0_addr rv.w0) (r0_addr + 4) rv.w1)
    (r0_addr + 8) rv.w2) (r0_addr + 12) rv.w3

/-- `SysCall::set_syscall_return_value`: write the encoded return value into
the current packed-batch entry's frame if a batch is active (then advance the
cursor and decrement the count, with the `StopOnError` failure handling),
otherwise into the top-of-stack hardware frame. -/
def set_syscall_return_value (accessible_memory_start app_brk : Nat)
    (state : CortexMStoredState) (m : Mem) (return_value : SyscallReturn) :
    Except Unit (CortexMStoredState × Mem) :=
  match state.packed_syscall with
  | some packed_syscall =>
    if packed_syscall.pointer < accessible_memory_start ∨
        satAdd packed_syscall.pointer
          (wrap32 (packed_syscall.count_remaining * 4 * 5)) > app_brk then
      .error ()
    else
      let stack_pointer := packed_syscall.pointer + 4
      let count1 := packed_syscall.count_remaining - 1
      let pointer1 :=
        if count1 > 0 then packed_syscall.pointer + 20 else packed_syscall.pointer
      let m1 := encode_syscall_return return_value m stack_pointer
      let (packed2, m2) :=
        if return_value.is_success = false then
          match packed_syscall.error_policy with
          | .STOP =>
            (PackedSyscall.mk 0 pointer1 packed_syscall.error_policy,
              write32 (write32 m1 state.psp SyscallReturnVariant_FailureU32)
                (state.psp + 4) count1)
          | .CONTINUE =>
            (PackedSyscall.mk count1 pointer1 packed_syscall.error_policy, m1)
        else
          (PackedSyscall.mk count1 pointer1 packed_syscall.error_policy, m1)
      let state2 :=
        if packed2.count_remaining = 0 then
          { state with packed_syscall := none }
        else
          { state with packed_syscall := some packed2 }
      .ok (state2, m2)
  | none =>
    if state.psp < accessible_memory_start ∨
        satAdd state.psp (4 * 4) > app_brk then
      .error ()
    else
      .ok (state, encode_syscall_return return_value m state.psp)

/-- `SysCall::initialize_process`.  The source mutates the stored state
through `&mut` before the room-for-a-frame check, so the mutated state is
returned on the error path as well. -/
def initialize_process (accessible_memory_start app_brk : Nat)
    (state : CortexMStoredState) : Except Unit Unit × CortexMStoredState :=
  let state1 : CortexMStoredState :=
    { state with
      regs := List.replicate 8 0
      yield_pc := 0
      psr := 0x01000000
      psp := app_brk }
  if wrapSub app_brk accessible_memory_start < SVC_FRAME_SIZE then
    (.error (), state1)
  else
    (.ok (), { state1 with psp := wrapSub app_brk SVC_FRAME_SIZE })

/-- Modelled from the spec: the kernel crate's `FunctionCall` upcall
descriptor (entry point and four arguments), missing from `src/`. -/
structure FunctionCall : Type where
  pc : Nat
  argument0 : Nat
  argument1 : Nat
  argument2 : Nat
  argument3 : Nat

/-- `SysCall::set_process_function`: rewrite the top-of-stack hardware frame
so the process resumes inside the callback.  The `r12` slot (offset 4 words)
is never written. -/
def set_process_function (accessible_memory_start app_brk : Nat)
    (state : CortexMStoredState) (m : Mem) (callback : FunctionCall) :
    Except Unit Mem :=
  if state.psp < accessible_memory_start ∨
      satAdd state.psp SVC_FRAME_SIZE > app_brk then
    .error ()
  else
    let m := write32 m (state.psp + 28) state.psr
    let m := write32 m (state.psp + 24) (callback.pc ||| 1)
    let m := write32 m (state.psp + 20) (state.yield_pc ||| 1)
    let m := write32 m (state.psp + 12) callback.argument3
    let m := write32 m (state.psp + 8) callback.argument2
    let m := write32 m (state.psp + 4) callback.argument1
    let m := write32 m state.psp callback.argument0
    .ok m

/-- Modelled from the spec: what the blocking hardware transition
(`switch_to_user`) hands back when the process traps into the kernel — the
new process stack pointer, the 8 saved registers, the two trap flags
(`APP_HARD_FAULT`, `SYSCALL_FIRED`) and the memory contents at that moment. -/
structure HwSwitchResult : Type where
  new_sp : Nat
  regs : List Nat
  app_fault : Nat
  syscall_fired : Nat
  mem : Mem

/-- Result of `switch_to_process`: the classified reason, the updated stored
state, the memory after any kernel writes, and the returned stack pointer. -/
structure SwitchResult : Type where
  reason : ContextSwitchReason
  state : CortexMStoredState
  mem : Mem
  sp : Option Nat

/-- `SysCall::switch_to_process`: drain a pending packed batch without a real
switch, or perform the real transition (whose outcome is `hw`) and classify
why control returned. -/
def switch_to_process (decode : Decode) (accessible_memory_start app_brk : Nat)
    (state : CortexMStoredState) (m : Mem) (hw : HwSwitchResult) : SwitchResult :=
  let np := next_packed_syscall decode accessible_memory_start app_brk state m
  match np.reason with
  | some switch_reason => ⟨switch_reason, np.state, m, some np.state.psp⟩
  | none =>
    let new_stack_pointer := hw.new_sp
    let state1 := { np.state with psp := new_stack_pointer, regs := hw.regs }
    let m1 := hw.mem
    let invalid_stack_pointer :=
      state1.psp < accessible_memory_start ∨
        satAdd state1.psp SVC_FRAME_SIZE > app_brk
    if hw.app_fault = 1 ∨ invalid_stack_pointer then
      ⟨.Fault, state1, m1, some new_stack_pointer⟩
    else if hw.syscall_fired = 1 then
      let state2 :=
        { state1 with
          yield_pc := read32 m1 (new_stack_pointer + 24)
          psr := read32 m1 (new_stack_pointer + 28) }
      let r0 := read32 m1 new_stack_pointer
      let r1 := read32 m1 (new_stack_pointer + 4)
      let r2 := read32 m1 (new_stack_pointer + 8)
      let r3 := read32 m1 (new_stack_pointer + 12)
      let pcptr := read32 m1 (new_stack_pointer + 24)
      let svc_instr := read16 m1 (wrapSub pcptr 2)
      let svc_num := svc_instr % 256
      if svc_num = 0xfe ∧ r0 > 0 then
        let state3 :=
          { state2 with
            packed_syscall :=
              some ⟨r0, r1, PackedSyscallErrorPolicy.fromUsize r2⟩ }
        let m2 := write32 m1 new_stack_pointer SyscallReturnVariant_Success
        let np2 := next_packed_syscall decode accessible_memory_start app_brk state3 m2
        ⟨np2.reason.getD .Fault, np2.state, m2, some new_stack_pointer⟩
      else
        match decode svc_num r0 r1 r2 r3 with
        | some s => ⟨.SyscallFired s, state2, m1, some new_stack_pointer⟩
        | none => ⟨.Fault, state2, m1, some new_stack_pointer⟩
    else
      ⟨.Interrupted, state1, m1, some new_stack_pointer⟩

/-- Modelled from the spec: the two kernel-crate `ErrorCode` variants the
snapshot encode/decode paths use, missing from `src/`. -/
inductive ErrorCode : Type
  | FAIL : ErrorCode
  | SIZE : ErrorCode
deriving DecidableEq, Repr

/-- Format version of the stored-state snapshot (`VERSION`). -/
def VERSION : Nat := 1

/-- `size_of::<CortexMStoredState>()` on the 32-bit Cortex-M target:
`regs` is 8 words (32 bytes), `yield_pc`/`psr`/`psp` one word each, and
`Option<PackedSyscall>` is 12 bytes (two words plus the niche-packed policy
byte padded to word alignment), so 32 + 4 + 4 + 4 + 12 = 56. -/
def STORED_STATE_SIZE : Nat := 56

/-- `u32::from_le_bytes(TAG)` for `TAG = [b'c', b't', b'x', b'm']`. -/
def TAG_WORD : Nat := 0x6d787463

/-- `METADATA_LEN`: version, size and tag words. -/
def METADATA_LEN : Nat := 3

/-- `USIZE_SZ = size_of::<usize>()` on the 32-bit target. -/
def USIZE_SZ : Nat := 4

/-- `VERSION_IDX`. -/
def VERSION_IDX : Nat := 0

/-- `SIZE_IDX`. -/
def SIZE_IDX : Nat := 1

/-- `TAG_IDX`. -/
def TAG_IDX : Nat := 2

/-- `YIELDPC_IDX`. -/
def YIELDPC_IDX : Nat := 3

/-- `PSR_IDX`. -/
def PSR_IDX : Nat := 4

/-- `PSP_IDX`. -/
def PSP_IDX : Nat := 5

/-- `REGS_IDX`. -/
def REGS_IDX : Nat := 6

/-- Byte `i` of a byte buffer (a `u8` slice cell; reads truncate to a byte,
out-of-range reads default to 0 and are only used under length guards). -/
def byteAt (l : List Nat) (i : Nat) : Nat := l.getD i 0 % 256

/-- The little-endian machine word at word index `index` of a byte buffer:
the value `usize_from_u8_slice` returns when its range check succeeds. -/
def wordAt (l : List Nat) (index : Nat) : Nat :=
  byteAt l (4 * index) + 2 ^ 8 * byteAt l (4 * index + 1) +
    2 ^ 16 * byteAt l (4 * index + 2) + 2 ^ 24 * byteAt l (4 * index + 3)

/-- `usize_from_u8_slice`: `slice.get(range)` fails with `SIZE` when the
range overruns the buffer; the subsequent `try_into` length check (`FAIL`)
can never fire because a successful `get` of a 4-byte range is 4 bytes. -/
def usize_from_u8_slice (slice : List Nat) (index : Nat) : Except ErrorCode Nat :=
  if 4 * index + 4 ≤ slice.length then .ok (wordAt slice index)
  else .error .SIZE

/-- `val.to_le_bytes()` of one 32-bit machine word. -/
def wordLE (v : Nat) : List Nat :=
  [v % 256, v / 2 ^ 8 % 256, v / 2 ^ 16 % 256, v / 2 ^ 24 % 256]

/-- `write_usize_to_u8_slice`: splice the word's little-endian bytes over
`slice[4*index .. 4*index+4]`. -/
def write_usize_to_u8_slice (val : Nat) (slice : List Nat) (index : Nat) : List Nat :=
  slice.take (4 * index) ++ wordLE val ++ slice.drop (4 * index + 4)

/-- `impl TryFrom<&[u8]> for CortexMStoredState`.  The Rust `&&` chain
short-circuits on the length test, and under `len = 56 + 3*4 = 68` every
`usize_from_u8_slice(..)?` read stays inside the buffer (the last read ends
at byte 56), so the `?` error paths cannot fire and the whole condition is
the pure conjunction below; every failure is `ErrorCode::FAIL`. -/
def try_from (ss : List Nat) : Except ErrorCode CortexMStoredState :=
  if ss.length = STORED_STATE_SIZE + METADATA_LEN * USIZE_SZ ∧
      wordAt ss VERSION_IDX = VERSION ∧
      wordAt ss SIZE_IDX = STORED_STATE_SIZE ∧
      wordAt ss TAG_IDX = TAG_WORD then
    .ok
      { regs := (List.range 8).map (fun i => wordAt ss (REGS_IDX + i))
        yield_pc := wordAt ss YIELDPC_IDX
        psr := wordAt ss PSR_IDX
        psp := wordAt ss PSP_IDX
        packed_syscall := none }
  else
    .error .FAIL

/-- `SysCall::store_context`: size check, then write every field in order
and return the exact number of bytes written. -/
def store_context (state : CortexMStoredState) (out : List Nat) :
    Except ErrorCode (Nat × List Nat) :=
  if STORED_STATE_SIZE + 3 * USIZE_SZ ≤ out.length then
    let o := write_usize_to_u8_slice VERSION out VERSION_IDX
    let o := write_usize_to_u8_slice STORED_STATE_SIZE o SIZE_IDX
    let o := write_usize_to_u8_slice TAG_WORD o TAG_IDX
    let o := write_usize_to_u8_slice state.yield_pc o YIELDPC_IDX
    let o := write_usize_to_u8_slice state.psr o PSR_IDX
    let o := write_usize_to_u8_slice state.psp o PSP_IDX
    let o := state.regs.enum.foldl
      (fun acc iv => write_usize_to_u8_slice iv.2 acc (REGS_IDX + iv.1)) o
    .ok ((state.regs.length + 3 + METADATA_LEN) * USIZE_SZ, o)
  else
    .error .SIZE

/-! Helper lemmas about the byte-addressed memory model. -/

theorem read8_write8 (m : Mem) (a v b : Nat) :
    read8 (write8 m a v) b = if b = a then v % 256 else read8 m b := by
  unfold read8 write8
  split <;> rfl

theorem read8_write32_of_ne (m : Mem) (a v b : Nat)
    (h : b < a ∨ a + 4 ≤ b) : read8 (write32 m a v) b = read8 m b := by
  unfold write32
  simp only [read8_write8]
  split_ifs <;> omega

theorem read8_write32_b0 (m : Mem) (a v : Nat) :
    read8 (write32 m a v) a = v % 256 := by
  unfold write32
  simp only [read8_write8]
  split_ifs <;> omega

theorem read8_write32_b1 (m : Mem) (a v : Nat) :
    read8 (write32 m a v) (a + 1) = v / 2 ^ 8 % 256 := by
  unfold write32
  simp only [read8_write8]
  split_ifs <;> omega

theorem read8_write32_b2 (m : Mem) (a v : Nat) :
    read8 (write32 m a v) (a + 2) = v / 2 ^ 16 % 256 := by
  unfold write32
  simp only [read8_write8]
  split_ifs <;> omega

theorem read8_write32_b3 (m : Mem) (a v : Nat) :
    read8 (write32 m a v) (a + 3) = v / 2 ^ 24 % 256 := by
  unfold write32
  simp only [read8_write8]
  split_ifs <;> omega

theorem read32_write32_self (m : Mem) (a v : Nat) :
    read32 (write32 m a v) a = v % 2 ^ 32 := by
  unfold read32
  rw [read8_write32_b0, read8_write32_b1, read8_write32_b2, read8_write32_b3]
  omega

theorem read32_write32_of_ne (m : Mem) (a v b : Nat)
    (h : b + 4 ≤ a ∨ a + 4 ≤ b) : read32 (write32 m a v) b = read32 m b := by
  unfold read32
  rw [read8_write32_of_ne m a v b (by omega),
    read8_write32_of_ne m a v (b + 1) (by omega),
    read8_write32_of_ne m a v (b + 2) (by omega),
    read8_write32_of_ne m a v (b + 3) (by omega)]

theorem read16_write32_of_ne (m : Mem) (a v b : Nat)
    (h : b + 2 ≤ a ∨ a + 4 ≤ b) : read16 (write32 m a v) b = read16 m b := by
  unfold read16
  rw [read8_write32_of_ne m a v b (by omega),
    read8_write32_of_ne m a v (b + 1) (by omega)]

/-! Concrete fixtures used by witnesses and counterexamples. -/

/-- All-zero memory. -/
def memZ : Mem := fun _ => 0

/-- A decoder that recognizes nothing. -/
def decodeNone : Decode := fun _ _ _ _ _ => none

/-- A decoder that always answers the suspend/yield call. -/
def decodeYield : Decode := fun _ _ _ _ _ => some (.Yield 0 0)

/-- A stored state with a pending one-entry batch whose cursor (0) is below
the accessible-memory start used in the witnesses (100). -/
def stBadBatch : CortexMStoredState :=
  { regs := List.replicate 8 0, yield_pc := 0, psr := 0, psp := 160
    packed_syscall := some ⟨1, 0, .STOP⟩ }

/-- A stored state with a pending one-entry batch at cursor 100. -/
def stBatch1 : CortexMStoredState :=
  { regs := List.replicate 8 0, yield_pc := 0, psr := 0, psp := 160
    packed_syscall := some ⟨1, 100, .STOP⟩ }

/-- A stored state with a pending two-entry batch at cursor 100. -/
def stBatch2 : CortexMStoredState :=
  { regs := List.replicate 8 0, yield_pc := 0, psr := 0, psp := 160
    packed_syscall := some ⟨2, 100, .STOP⟩ }

/-- Claim C3: for every call to `next_packed_syscall` with a pending batch,
the range `[cursor, cursor + remaining*5 words)` is checked against
`[accessible_memory_start, app_brk)` before any entry word is read; if the
range is out of bounds the outcome is `Fault` and no process memory is read;
and the function never advances the cursor and never decrements `remaining`
(the whole stored state is returned unchanged). -/
theorem claim_C3 (decode : Decode) (start brk : Nat) (st : CortexMStoredState)
    (m : Mem) (ps : PackedSyscall) (hps : st.packed_syscall = some ps) :
    (¬ (start ≤ ps.pointer ∧
        satAdd ps.pointer (wrap32 (ps.count_remaining * 4 * 5)) ≤ brk) →
      (next_packed_syscall decode start brk st m).reason = some .Fault ∧
      (next_packed_syscall decode start brk st m).reads = []) ∧
    (next_packed_syscall decode start brk st m).state = st := by
  constructor
  · intro h
    simp only [next_packed_syscall, hps, if_neg h]
    exact ⟨trivial, trivial⟩
  · simp only [next_packed_syscall, hps]
    split
    · split
      · split
        · split <;> rfl
        · rfl
      · rfl
    · rfl

/-- Witness for claim C3 at a concrete out-of-bounds batch. -/
theorem claim_C3_witness :
    ((next_packed_syscall decodeNone 100 200 stBadBatch memZ).reason = some .Fault ∧
      (next_packed_syscall decodeNone 100 200 stBadBatch memZ).reads = []) ∧
    (next_packed_syscall decodeNone 100 200 stBadBatch memZ).state = stBadBatch :=
  ⟨(claim_C3 decodeNone 100 200 stBadBatch memZ ⟨1, 0, .STOP⟩ rfl).1 (by decide),
    (claim_C3 decodeNone 100 200 stBadBatch memZ ⟨1, 0, .STOP⟩ rfl).2⟩

/-- Claim C4: for every pending batch, a batch entry that decodes to the
suspend/yield call is classified `Fault` when `remaining > 1` and
`SyscallFired` when `remaining = 1`. -/
theorem claim_C4 (decode : Decode) (start brk : Nat) (st : CortexMStoredState)
    (m : Mem) (ps : PackedSyscall) (s : Syscall)
    (hps : st.packed_syscall = some ps)
    (hbounds : start ≤ ps.pointer ∧
      satAdd ps.pointer (wrap32 (ps.count_remaining * 4 * 5)) ≤ brk)
    (hdec : decode (read32 m ps.pointer % 256) (read32 m (ps.pointer + 4))
      (read32 m (ps.pointer + 8)) (read32 m (ps.pointer + 12))
      (read32 m (ps.pointer + 16)) = some s)
    (hy : s.isYield = true) :
    (1 < ps.count_remaining →
      (next_packed_syscall decode start brk st m).reason = some .Fault) ∧
    (ps.count_remaining = 1 →
      (next_packed_syscall decode start brk st m).reason =
        some (.SyscallFired s)) := by
  constructor
  · intro hc
    simp only [next_packed_syscall, hps, if_pos hbounds, hdec, hy, if_true,
      if_neg (show ¬ ps.count_remaining = 1 by omega)]
  · intro hc
    simp only [next_packed_syscall, hps, if_pos hbounds, hdec, hy, if_true,
      if_pos hc]

/-- Witness for claim C4 at a last-entry yield and a mid-batch yield. -/
theorem claim_C4_witness :
    (next_packed_syscall decodeYield 100 200 stBatch2 memZ).reason =
      some .Fault ∧
    (next_packed_syscall decodeYield 100 200 stBatch1 memZ).reason =
      some (.SyscallFired (.Yield 0 0)) :=
  ⟨(claim_C4 decodeYield 100 200 stBatch2 memZ ⟨2, 100, .STOP⟩ (.Yield 0 0)
      rfl (by decide) rfl rfl).1 (by decide),
    (claim_C4 decodeYield 100 200 stBatch1 memZ ⟨1, 100, .STOP⟩ (.Yield 0 0)
      rfl (by decide) rfl rfl).2 rfl⟩

/-- Wrapping subtraction agrees with plain subtraction inside the 32-bit
range. -/
theorem wrapSub_eq_sub {a b : Nat} (hb : b ≤ a) (ha : a < 2 ^ 32) :
    wrapSub a b = a - b := by
  unfold wrapSub
  omega

/-- A plain stored state (no pending batch) used by witnesses. -/
def stPlain : CortexMStoredState :=
  { regs := [1, 2, 3, 4, 5, 6, 7, 8], yield_pc := 9, psr := 10, psp := 160
    packed_syscall := none }

/-- Claim C6: for every bounds pair with `app_brk - accessible_memory_start ≥
frame_size` (8 machine words = 32 bytes), `initialize_process` succeeds,
zeroes all eight saved registers, sets `resume_pc` to 0, sets the status
register to the fixed initial value `0x01000000`, and leaves `stack_pointer`
exactly `frame_size` bytes below `app_brk`; when the region is smaller than
one frame it fails. -/
theorem claim_C6 (start brk : Nat) (st : CortexMStoredState)
    (hle : start ≤ brk) (hlt : brk < 2 ^ 32) :
    (SVC_FRAME_SIZE ≤ brk - start →
      initialize_process start brk st =
        (.ok (),
          { regs := List.replicate 8 0
            yield_pc := 0
            psr := 0x01000000
            psp := brk - SVC_FRAME_SIZE
            packed_syscall := st.packed_syscall })) ∧
    (brk - start < SVC_FRAME_SIZE →
      (initialize_process start brk st).1 = .error ()) := by
  have e1 : wrapSub brk start = brk - start := wrapSub_eq_sub hle hlt
  constructor
  · intro h
    have e2 : wrapSub brk SVC_FRAME_SIZE = brk - SVC_FRAME_SIZE :=
      wrapSub_eq_sub (by unfold SVC_FRAME_SIZE at h ⊢; omega) hlt
    simp only [initialize_process, e1, e2, if_neg (show ¬ brk - start < SVC_FRAME_SIZE by omega)]
  · intro h
    simp only [initialize_process, e1, if_pos h]

/-- Witness for claim C6 at a concrete bounds pair with room for a frame and
one without. -/
theorem claim_C6_witness :
    initialize_process 100 200 stPlain =
      (.ok (),
        { regs := List.replicate 8 0, yield_pc := 0, psr := 0x01000000
          psp := 200 - SVC_FRAME_SIZE, packed_syscall := stPlain.packed_syscall }) ∧
    (initialize_process 100 120 stPlain).1 = .error () :=
  ⟨(claim_C6 100 200 stPlain (by decide) (by decide)).1 (by decide),
    (claim_C6 100 120 stPlain (by decide) (by decide)).2 (by decide)⟩

/-- Claim C10: when `initialize_process` is called on a region smaller than
one frame, the error is returned only after the stored state has already been
mutated: all eight saved registers zeroed, `resume_pc := 0`, the status
register set to the initial value, and `stack_pointer` set to `app_brk` with
no frame reserved. -/
theorem claim_C10 (start brk : Nat) (st : CortexMStoredState)
    (hle : start ≤ brk) (hlt : brk < 2 ^ 32)
    (h : brk - start < SVC_FRAME_SIZE) :
    initialize_process start brk st =
      (.error (),
        { regs := List.replicate 8 0
          yield_pc := 0
          psr := 0x01000000
          psp := brk
          packed_syscall := st.packed_syscall }) := by
  have e1 : wrapSub brk start = brk - start := wrapSub_eq_sub hle hlt
  simp only [initialize_process, e1, if_pos h]

/-- Witness for claim C10 at a concrete too-small region. -/
theorem claim_C10_witness :
    initialize_process 100 120 stPlain =
      (.error (),
        { regs := List.replicate 8 0, yield_pc := 0, psr := 0x01000000
          psp := 120, packed_syscall := stPlain.packed_syscall }) :=
  claim_C10 100 120 stPlain (by decide) (by decide) (by decide)

/-- Reading back the rewritten frame: the `pc` slot. -/
theorem frameRead_pc (m : Mem) (p psr pcv ypc a3 a2 a1 a0 : Nat) :
    read32 (write32 (write32 (write32 (write32 (write32 (write32 (write32 m
      (p + 28) psr) (p + 24) pcv) (p + 20) ypc) (p + 12) a3) (p + 8) a2)
      (p + 4) a1) p a0) (p + 24) = pcv % 2 ^ 32 := by
  rw [read32_write32_of_ne _ p a0 (p + 24) (Or.inr (by omega)),
    read32_write32_of_ne _ (p + 4) a1 (p + 24) (Or.inr (by omega)),
    read32_write32_of_ne _ (p + 8) a2 (p + 24) (Or.inr (by omega)),
    read32_write32_of_ne _ (p + 12) a3 (p + 24) (Or.inr (by omega)),
    read32_write32_of_ne _ (p + 20) ypc (p + 24) (Or.inr (by omega)),
    read32_write32_self]

/-- Reading back the rewritten frame: the `lr` slot. -/
theorem frameRead_lr (m : Mem) (p psr pcv ypc a3 a2 a1 a0 : Nat) :
    read32 (write32 (write32 (write32 (write32 (write32 (write32 (write32 m
      (p + 28) psr) (p + 24) pcv) (p + 20) ypc) (p + 12) a3) (p + 8) a2)
      (p + 4) a1) p a0) (p + 20) = ypc % 2 ^ 32 := by
  rw [read32_write32_of_ne _ p a0 (p + 20) (Or.inr (by omega)),
    read32_write32_of_ne _ (p + 4) a1 (p + 20) (Or.inr (by omega)),
    read32_write32_of_ne _ (p + 8) a2 (p + 20) (Or.inr (by omega)),
    read32_write32_of_ne _ (p + 12) a3 (p + 20) (Or.inr (by omega)),
    read32_write32_self]

/-- Reading back the rewritten frame: the `r0` slot. -/
theorem frameRead_r0 (m : Mem) (p psr pcv ypc a3 a2 a1 a0 : Nat) :
    read32 (write32 (write32 (write32 (write32 (write32 (write32 (write32 m
      (p + 28) psr) (p + 24) pcv) (p + 20) ypc) (p + 12) a3) (p + 8) a2)
      (p + 4) a1) p a0) p = a0 % 2 ^ 32 := by
  rw [read32_write32_self]

/-- Reading back the rewritten frame: the `r1` slot. -/
theorem frameRead_r1 (m : Mem) (p psr pcv ypc a3 a2 a1 a0 : Nat) :
    read32 (write32 (write32 (write32 (write32 (write32 (write32 (write32 m
      (p + 28) psr) (p + 24) pcv) (p + 20) ypc) (p + 12) a3) (p + 8) a2)
      (p + 4) a1) p a0) (p + 4) = a1 % 2 ^ 32 := by
  rw [read32_write32_of_ne _ p a0 (p + 4) (Or.inr (by omega)),
    read32_write32_self]

/-- Reading back the rewritten frame: the `r2` slot. -/
theorem frameRead_r2 (m : Mem) (p psr pcv ypc a3 a2 a1 a0 : Nat) :
    read32 (write32 (write32 (write32 (write32 (write32 (write32 (write32 m
      (p + 28) psr) (p + 24) pcv) (p + 20) ypc) (p + 12) a3) (p + 8) a2)
      (p + 4) a1) p a0) (p + 8) = a2 % 2 ^ 32 := by
  rw [read32_write32_of_ne _ p a0 (p + 8) (Or.inr (by omega)),
    read32_write32_of_ne _ (p + 4) a1 (p + 8) (Or.inr (by omega)),
    read32_write32_self]

/-- Reading back the rewritten frame: the `r3` slot. -/
theorem frameRead_r3 (m : Mem) (p psr pcv ypc a3 a2 a1 a0 : Nat) :
    read32 (write32 (write32 (write32 (write32 (write32 (write32 (write32 m
      (p + 28) psr) (p + 24) pcv) (p + 20) ypc) (p + 12) a3) (p + 8) a2)
      (p + 4) a1) p a0) (p + 12) = a3 % 2 ^ 32 := by
  rw [read32_write32_of_ne _ p a0 (p + 12) (Or.inr (by omega)),
    read32_write32_of_ne _ (p + 4) a1 (p + 12) (Or.inr (by omega)),
    read32_write32_of_ne _ (p + 8) a2 (p + 12) (Or.inr (by omega)),
    read32_write32_self]

/-- Reading back the rewritten frame: the status slot. -/
theorem frameRead_psr (m : Mem) (p psr pcv ypc a3 a2 a1 a0 : Nat) :
    read32 (write32 (write32 (write32 (write32 (write32 (write32 (write32 m
      (p + 28) psr) (p + 24) pcv) (p + 20) ypc) (p + 12) a3) (p + 8) a2)
      (p + 4) a1) p a0) (p + 28) = psr % 2 ^ 32 := by
  rw [read32_write32_of_ne _ p a0 (p + 28) (Or.inr (by omega)),
    read32_write32_of_ne _ (p + 4) a1 (p + 28) (Or.inr (by omega)),
    read32_write32_of_ne _ (p + 8) a2 (p + 28) (Or.inr (by omega)),
    read32_write32_of_ne _ (p + 12) a3 (p + 28) (Or.inr (by omega)),
    read32_write32_of_ne _ (p + 20) ypc (p + 28) (Or.inr (by omega)),
    read32_write32_of_ne _ (p + 24) pcv (p + 28) (Or.inr (by omega)),
    read32_write32_self]

/-- Reading back the rewritten frame: the `r12` slot is untouched. -/
theorem frameRead_r12 (m : Mem) (p psr pcv ypc a3 a2 a1 a0 : Nat) :
    read32 (write32 (write32 (write32 (write32 (write32 (write32 (write32 m
      (p + 28) psr) (p + 24) pcv) (p + 20) ypc) (p + 12) a3) (p + 8) a2)
      (p + 4) a1) p a0) (p + 16) = read32 m (p + 16) := by
  rw [read32_write32_of_ne _ p a0 (p + 16) (Or.inr (by omega)),
    read32_write32_of_ne _ (p + 4) a1 (p + 16) (Or.inr (by omega)),
    read32_write32_of_ne _ (p + 8) a2 (p + 16) (Or.inr (by omega)),
    read32_write32_of_ne _ (p + 12) a3 (p + 16) (Or.inr (by omega)),
    read32_write32_of_ne _ (p + 20) ypc (p + 16) (Or.inl (by omega)),
    read32_write32_of_ne _ (p + 24) pcv (p + 16) (Or.inl (by omega)),
    read32_write32_of_ne _ (p + 28) psr (p + 16) (Or.inl (by omega))]

/-- The frame-bounds test of the source (`psp < start || psp +sat 32 > brk`)
is false when `[psp, psp + 32) ⊆ [start, brk)` and `brk` is a 32-bit value. -/
theorem frame_in_bounds_cond {start brk psp : Nat} (h1 : start ≤ psp)
    (h2 : psp + SVC_FRAME_SIZE ≤ brk) (hbrk : brk < 2 ^ 32) :
    ¬ (psp < start ∨ satAdd psp SVC_FRAME_SIZE > brk) := by
  unfold SVC_FRAME_SIZE at h2
  simp only [satAdd, USIZE_MAX, SVC_FRAME_SIZE]
  omega

/-- Claim C7: when the frame at the stored stack pointer lies within process
memory, `set_process_function` writes the frame so that `pc = callback.pc | 1`,
`lr = yield_pc | 1`, `r0..r3` = the four callback arguments and the status
word = the stored status register, and it never writes the r12 slot of the
frame (offset 16); when the frame range is not fully inside
`[accessible_memory_start, app_brk)` it fails without writing. -/
theorem claim_C7 (start brk : Nat) (st : CortexMStoredState) (m : Mem)
    (cb : FunctionCall) (hbrk : brk < 2 ^ 32) (hpc : cb.pc < 2 ^ 32)
    (ha0 : cb.argument0 < 2 ^ 32) (ha1 : cb.argument1 < 2 ^ 32)
    (ha2 : cb.argument2 < 2 ^ 32) (ha3 : cb.argument3 < 2 ^ 32)
    (hpsr : st.psr < 2 ^ 32) (hypc : st.yield_pc < 2 ^ 32) :
    (start ≤ st.psp ∧ st.psp + SVC_FRAME_SIZE ≤ brk →
      ∃ m', set_process_function start brk st m cb = .ok m' ∧
        read32 m' (st.psp + 24) = cb.pc ||| 1 ∧
        read32 m' (st.psp + 20) = st.yield_pc ||| 1 ∧
        read32 m' st.psp = cb.argument0 ∧
        read32 m' (st.psp + 4) = cb.argument1 ∧
        read32 m' (st.psp + 8) = cb.argument2 ∧
        read32 m' (st.psp + 12) = cb.argument3 ∧
        read32 m' (st.psp + 28) = st.psr ∧
        read32 m' (st.psp + 16) = read32 m (st.psp + 16)) ∧
    (st.psp < start ∨ satAdd st.psp SVC_FRAME_SIZE > brk →
      set_process_function start brk st m cb = .error ()) := by
  have hone : (1 : Nat) < 2 ^ 32 := by norm_num
  constructor
  · intro h
    have hcond := frame_in_bounds_cond h.1 h.2 hbrk
    simp only [set_process_function, if_neg hcond]
    exact ⟨_, rfl,
      (frameRead_pc m st.psp st.psr (cb.pc ||| 1) (st.yield_pc ||| 1)
        cb.argument3 cb.argument2 cb.argument1 cb.argument0).trans
        (Nat.mod_eq_of_lt (Nat.bitwise_lt hpc hone)),
      (frameRead_lr m st.psp st.psr (cb.pc ||| 1) (st.yield_pc ||| 1)
        cb.argument3 cb.argument2 cb.argument1 cb.argument0).trans
        (Nat.mod_eq_of_lt (Nat.bitwise_lt hypc hone)),
      (frameRead_r0 m st.psp st.psr (cb.pc ||| 1) (st.yield_pc ||| 1)
        cb.argument3 cb.argument2 cb.argument1 cb.argument0).trans
        (Nat.mod_eq_of_lt ha0),
      (frameRead_r1 m st.psp st.psr (cb.pc ||| 1) (st.yield_pc ||| 1)
        cb.argument3 cb.argument2 cb.argument1 cb.argument0).trans
        (Nat.mod_eq_of_lt ha1),
      (frameRead_r2 m st.psp st.psr (cb.pc ||| 1) (st.yield_pc ||| 1)
        cb.argument3 cb.argument2 cb.argument1 cb.argument0).trans
        (Nat.mod_eq_of_lt ha2),
      (frameRead_r3 m st.psp st.psr (cb.pc ||| 1) (st.yield_pc ||| 1)
        cb.argument3 cb.argument2 cb.argument1 cb.argument0).trans
        (Nat.mod_eq_of_lt ha3),
      (frameRead_psr m st.psp st.psr (cb.pc ||| 1) (st.yield_pc ||| 1)
        cb.argument3 cb.argument2 cb.argument1 cb.argument0).trans
        (Nat.mod_eq_of_lt hpsr),
      frameRead_r12 m st.psp st.psr (cb.pc ||| 1) (st.yield_pc ||| 1)
        cb.argument3 cb.argument2 cb.argument1 cb.argument0⟩
  · intro h
    simp only [set_process_function, if_pos h]

/-- The concrete callback of the spec's example (`entry = 0x2001`). -/
def cbExample : FunctionCall :=
  { pc := 0x2001, argument0 := 11, argument1 := 12, argument2 := 13
    argument3 := 14 }

/-- Witness for claim C7 at the spec's example callback, on `stPlain`
(`psp = 160`) with bounds `[100, 200)`. -/
theorem claim_C7_witness :
    ∃ m', set_process_function 100 200 stPlain memZ cbExample = .ok m' ∧
      read32 m' (stPlain.psp + 24) = cbExample.pc ||| 1 ∧
      read32 m' (stPlain.psp + 20) = stPlain.yield_pc ||| 1 ∧
      read32 m' stPlain.psp = cbExample.argument0 ∧
      read32 m' (stPlain.psp + 4) = cbExample.argument1 ∧
      read32 m' (stPlain.psp + 8) = cbExample.argument2 ∧
      read32 m' (stPlain.psp + 12) = cbExample.argument3 ∧
      read32 m' (stPlain.psp + 28) = stPlain.psr ∧
      read32 m' (stPlain.psp + 16) = read32 memZ (stPlain.psp + 16) :=
  (claim_C7 100 200 stPlain memZ cbExample (by decide) (by decide) (by decide)
    (by decide) (by decide) (by decide) (by decide) (by decide)).1 (by decide)

/-- Iterating `set_syscall_return_value` (the kernel loop feeds one return
value per batch entry); propagates the first error. -/
def ssrvIter (start brk : Nat) (rv : SyscallReturn) :
    Nat → CortexMStoredState × Mem → Except Unit (CortexMStoredState × Mem)
  | 0, sm => .ok sm
  | n + 1, sm =>
    match set_syscall_return_value start brk sm.1 sm.2 rv with
    | .error e => .error e
    | .ok sm' => ssrvIter start brk rv n sm'

/-- The batch-bounds test of the source is false when the whole remaining
batch fits inside `[start, brk)` and `brk` is a 32-bit value. -/
theorem batch_bounds_cond {start brk p c : Nat} (h1 : start ≤ p)
    (h2 : p + 20 * c ≤ brk) (hbrk : brk < 2 ^ 32) :
    ¬ (p < start ∨ satAdd p (wrap32 (c * 4 * 5)) > brk) := by
  simp only [satAdd, USIZE_MAX, wrap32]
  omega

/-- One `set_syscall_return_value` step on a `CONTINUE`-policy batch: the
return value is written into the frame of the entry just executed, the count
is decremented and the cursor advanced; the batch is discarded exactly when
the count reaches zero.  The state outcome is the same whether the return
value is a success or a failure. -/
theorem ssrv_continue_step (start brk : Nat) (rv : SyscallReturn)
    (st : CortexMStoredState) (m : Mem) (c p : Nat)
    (hps : st.packed_syscall = some ⟨c, p, .CONTINUE⟩)
    (h1 : start ≤ p) (h2 : p + 20 * c ≤ brk) (hbrk : brk < 2 ^ 32) :
    set_syscall_return_value start brk st m rv =
      .ok ((if c - 1 = 0 then { st with packed_syscall := none }
            else { st with packed_syscall := some ⟨c - 1, p + 20, .CONTINUE⟩ }),
        encode_syscall_return rv m (p + 4)) := by
  have hcond := batch_bounds_cond h1 h2 hbrk
  simp only [set_syscall_return_value, hps, if_neg hcond, ite_self]
  by_cases hc : c - 1 = 0
  · rw [if_pos hc, if_pos hc]
  · rw [if_neg hc, if_neg hc, if_pos (Nat.pos_of_ne_zero hc)]

/-- Draining a `CONTINUE`-policy batch of `c` entries: after `j ≤ c` return
values have been delivered (successes or failures alike), `remaining` is
`c - j` and the cursor has advanced by `j` entries; after the `c`-th the
batch is gone.  In particular every one of the `c` entries becomes the
cursor target in turn. -/
theorem ssrv_continue_drain (start brk : Nat) (rv : SyscallReturn)
    (hbrk : brk < 2 ^ 32) :
    ∀ (j : Nat) (st : CortexMStoredState) (m : Mem) (c p : Nat),
      st.packed_syscall = some ⟨c, p, .CONTINUE⟩ →
      1 ≤ c → start ≤ p → p + 20 * c ≤ brk → j ≤ c →
      ∃ m', ssrvIter start brk rv j (st, m) =
        .ok ((if j < c then
            { st with packed_syscall := some ⟨c - j, p + 20 * j, .CONTINUE⟩ }
          else
            { st with packed_syscall := none }), m')
  | 0, st, m, c, p, hps, hc, h1, h2, hj => by
    refine ⟨m, ?_⟩
    rw [if_pos (by omega)]
    simp only [ssrvIter, Nat.sub_zero, Nat.mul_zero, Nat.add_zero]
    rw [← hps]
  | j + 1, st, m, c, p, hps, hc, h1, h2, hj => by
    have hstep := ssrv_continue_step start brk rv st m c p hps h1 h2 hbrk
    by_cases hc1 : c - 1 = 0
    · have hj0 : j = 0 := by omega
      have hcj : c = 1 := by omega
      subst hj0
      refine ⟨encode_syscall_return rv m (p + 4), ?_⟩
      simp only [ssrvIter, hstep, if_pos hc1]
      rw [if_neg (by omega)]
    · obtain ⟨m', hrec⟩ := ssrv_continue_drain start brk rv hbrk j
        { st with packed_syscall := some ⟨c - 1, p + 20, .CONTINUE⟩ }
        (encode_syscall_return rv m (p + 4)) (c - 1) (p + 20) rfl
        (by omega) (by omega) (by omega) (by omega)
      refine ⟨m', ?_⟩
      simp only [ssrvIter, hstep, if_neg hc1]
      rw [hrec]
      by_cases hlt : j + 1 < c
      · rw [if_pos (by omega), if_pos hlt]
        have e1 : c - 1 - j = c - (j + 1) := by omega
        have e2 : p + 20 + 20 * j = p + 20 * (j + 1) := by ring
        rw [e1, e2]
      · rw [if_neg (by omega), if_neg hlt]

/-- One `set_syscall_return_value` step on a `STOP`-policy batch with a
failure return value: the return value is first encoded into the frame of the
entry just executed, then the distinguished failure code and the decremented
remaining count are written over the words at the stored stack pointer, and
the batch is discarded. -/
theorem ssrv_stop_step (start brk : Nat) (rv : SyscallReturn)
    (st : CortexMStoredState) (m : Mem) (c p : Nat)
    (hps : st.packed_syscall = some ⟨c, p, .STOP⟩)
    (hfail : rv.is_success = false)
    (h1 : start ≤ p) (h2 : p + 20 * c ≤ brk) (hbrk : brk < 2 ^ 32) :
    set_syscall_return_value start brk st m rv =
      .ok ({ st with packed_syscall := none },
        write32 (write32 (encode_syscall_return rv m (p + 4)) st.psp
          SyscallReturnVariant_FailureU32) (st.psp + 4) (c - 1)) := by
  have hcond := batch_bounds_cond h1 h2 hbrk
  simp only [set_syscall_return_value, hps, if_neg hcond, hfail]
  rfl

/-- Claim C2: for a pending batch of `N` entries with policy `STOP`, a
failure value delivered for entry `k` (1-indexed, so `remaining = N - k + 1`)
writes the distinguished failure code into the original entry-point frame at
the stored stack pointer together with the count `N - k` of not-yet-executed
calls, discards the batch, and afterwards `next_packed_syscall` reads
nothing; with policy `CONTINUE` failure values leave the batch draining and
all `N` entries are attempted (each entry in turn becomes the cursor
target, and only the `N`-th delivery discards the batch). -/
theorem claim_C2 :
    (∀ (start brk : Nat) (st : CortexMStoredState) (m : Mem)
        (rv : SyscallReturn) (N k p : Nat),
      st.packed_syscall = some ⟨N - k + 1, p, .STOP⟩ →
      1 ≤ k → k ≤ N → N < 2 ^ 32 → rv.is_success = false →
      start ≤ p → p + 20 * (N - k + 1) ≤ brk → brk < 2 ^ 32 →
      ∃ m', set_syscall_return_value start brk st m rv =
          .ok ({ st with packed_syscall := none }, m') ∧
        read32 m' st.psp = SyscallReturnVariant_FailureU32 ∧
        read32 m' (st.psp + 4) = N - k ∧
        (∀ (decode : Decode) (m2 : Mem),
          (next_packed_syscall decode start brk
            { st with packed_syscall := none } m2).reason = none ∧
          (next_packed_syscall decode start brk
            { st with packed_syscall := none } m2).reads = [])) ∧
    (∀ (start brk : Nat) (rv : SyscallReturn) (j : Nat)
        (st : CortexMStoredState) (m : Mem) (N p : Nat),
      st.packed_syscall = some ⟨N, p, .CONTINUE⟩ →
      rv.is_success = false →
      1 ≤ N → start ≤ p → p + 20 * N ≤ brk → brk < 2 ^ 32 → j ≤ N →
      ∃ m', ssrvIter start brk rv j (st, m) =
        .ok ((if j < N then
            { st with packed_syscall := some ⟨N - j, p + 20 * j, .CONTINUE⟩ }
          else { st with packed_syscall := none }), m')) := by
  constructor
  · intro start brk st m rv N k p hps hk1 hkN hN hfail h1 h2 hbrk
    have hstep := ssrv_stop_step start brk rv st m (N - k + 1) p hps hfail h1 h2 hbrk
    refine ⟨_, hstep, ?_, ?_, ?_⟩
    · rw [read32_write32_of_ne _ (st.psp + 4) (N - k + 1 - 1) st.psp
        (Or.inl (Nat.le_refl _)), read32_write32_self]
      rfl
    · rw [read32_write32_self, Nat.add_sub_cancel]
      exact Nat.mod_eq_of_lt (Nat.lt_of_le_of_lt (Nat.sub_le N k) hN)
    · intro decode m2
      exact ⟨rfl, rfl⟩
  · intro start brk rv j st m N p hps _hfail hN h1 h2 hbrk hj
    exact ssrv_continue_drain start brk rv hbrk j st m N p hps hN h1 h2 hj

/-- A failing return value used by witnesses. -/
def rvFail : SyscallReturn := ⟨false, 7, 8, 9, 10⟩

/-- A state holding a `STOP`-policy batch with 2 remaining entries at cursor
120 (entry 2 of an original batch of 3). -/
def stBatchStop : CortexMStoredState :=
  { regs := List.replicate 8 0, yield_pc := 0, psr := 0, psp := 160
    packed_syscall := some ⟨2, 120, .STOP⟩ }

/-- A state holding a `CONTINUE`-policy batch with 2 remaining entries at
cursor 120. -/
def stBatchCont : CortexMStoredState :=
  { regs := List.replicate 8 0, yield_pc := 0, psr := 0, psp := 160
    packed_syscall := some ⟨2, 120, .CONTINUE⟩ }

/-- Witness for claim C2: a concrete `STOP` abort (entry 2 of 3) and a
concrete full `CONTINUE` drain of 2 entries. -/
theorem claim_C2_witness :
    (∃ m', set_syscall_return_value 100 300 stBatchStop memZ rvFail =
        .ok ({ stBatchStop with packed_syscall := none }, m') ∧
      read32 m' stBatchStop.psp = SyscallReturnVariant_FailureU32 ∧
      read32 m' (stBatchStop.psp + 4) = 3 - 2 ∧
      (∀ (decode : Decode) (m2 : Mem),
        (next_packed_syscall decode 100 300
          { stBatchStop with packed_syscall := none } m2).reason = none ∧
        (next_packed_syscall decode 100 300
          { stBatchStop with packed_syscall := none } m2).reads = [])) ∧
    (∃ m', ssrvIter 100 300 rvFail 2 (stBatchCont, memZ) =
      .ok ((if 2 < 2 then
          { stBatchCont with packed_syscall := some ⟨2 - 2, 120 + 20 * 2, .CONTINUE⟩ }
        else { stBatchCont with packed_syscall := none }), m')) :=
  ⟨claim_C2.1 100 300 stBatchStop memZ rvFail 3 2 120 rfl (by decide)
      (by decide) (by decide) rfl (by decide) (by decide) (by decide),
    claim_C2.2 100 300 rvFail 2 stBatchCont memZ 2 120 rfl rfl (by decide)
      (by decide) (by decide) (by decide) (by decide)⟩

/-- Overwriting `packed_syscall` with `none` is the identity when it already
is `none`. -/
theorem withPackedNone_eta (st : CortexMStoredState)
    (h : st.packed_syscall = none) :
    { st with packed_syscall := none } = st := by
  cases st
  simp_all

/-- With no pending batch, `next_packed_syscall` yields no reason, no reads,
and the unchanged state. -/
theorem np_none (decode : Decode) (start brk : Nat) (st : CortexMStoredState)
    (m : Mem) (h : st.packed_syscall = none) :
    next_packed_syscall decode start brk st m = ⟨none, st, []⟩ := by
  simp only [next_packed_syscall, h]
  rw [withPackedNone_eta st h]

/-- `next_packed_syscall` never modifies the stored state. -/
theorem np_state_eq (decode : Decode) (start brk : Nat)
    (st : CortexMStoredState) (m : Mem) :
    (next_packed_syscall decode start brk st m).state = st := by
  cases hps : st.packed_syscall with
  | none => rw [np_none decode start brk st m hps]
  | some ps =>
    simp only [next_packed_syscall, hps]
    split
    · split
      · split
        · split <;> rfl
        · rfl
      · rfl
    · rfl

/-- A decoder that recognizes every call number except the batch-start
sentinel `0xfe`, matching the dispatch layer for which `0xfe` is reserved. -/
def decodeNot0xfe : Decode := fun n r0 r1 r2 r3 =>
  if n = 0xfe then none else some (.Other n r0 r1 r2 r3)

/-- Post-switch memory for the C1 counterexample: the process issued the
batch-start sentinel (`svc 0xfe`, frame `r0 = 1` entry, `r1 = 240` cursor,
`r2 = 0` stop-policy) and the single batch entry at 240 is call number 5. -/
def memC1 : Mem := fun a =>
  if a = 200 then 1
  else if a = 204 then 240
  else if a = 224 then 150
  else if a = 148 then 0xfe
  else if a = 240 then 5
  else 0

/-- Hardware outcome for the C1 counterexample: returned stack pointer 200
(valid for bounds `[100, 300)`), no hardware fault, syscall flag set. -/
def hwC1 : HwSwitchResult :=
  { new_sp := 200, regs := List.replicate 8 0, app_fault := 0
    syscall_fired := 1, mem := memC1 }

/-- Counterexample to claim C1 as stated: the syscall flag is set, the stack
pointer is valid, no hardware fault occurred, and the register tuple does
NOT decode to a recognized call (the extracted call number is the reserved
`0xfe` sentinel), yet the classification is not `Fault` — the sentinel path
establishes a batch and returns `SyscallFired` for its first entry. -/
theorem claim_C1_cex :
    hwC1.app_fault ≠ 1 ∧
    ¬ (hwC1.new_sp < 100 ∨ satAdd hwC1.new_sp SVC_FRAME_SIZE > 300) ∧
    hwC1.syscall_fired = 1 ∧
    decodeNot0xfe
      (read16 hwC1.mem (wrapSub (read32 hwC1.mem (hwC1.new_sp + 24)) 2) % 256)
      (read32 hwC1.mem hwC1.new_sp) (read32 hwC1.mem (hwC1.new_sp + 4))
      (read32 hwC1.mem (hwC1.new_sp + 8)) (read32 hwC1.mem (hwC1.new_sp + 12)) =
      none ∧
    (switch_to_process decodeNot0xfe 100 300 stPlain memZ hwC1).reason =
      .SyscallFired (.Other 5 0 0 0 0) := by
  refine ⟨by decide, by decide, rfl, by decide, ?_⟩
  decide

/-- Claim C1, amended: for a return from a real context switch (no pending
batch), the classification has strict priority: hardware-fault flag set or
returned stack pointer plus one 8-word frame not inside
`[accessible_memory_start, app_brk)` gives `Fault`; otherwise, with the
syscall flag set, if the extracted call number with positive `r0` is the
batch-start sentinel `0xfe` the result is the classification of the first
entry of the newly established batch, and otherwise a recognized decode
gives `SyscallFired` with that call and an unrecognized decode gives
`Fault`; with neither flag set the result is `Interrupted`. -/
theorem claim_C1 (decode : Decode) (start brk : Nat) (st : CortexMStoredState)
    (m : Mem) (hw : HwSwitchResult) (hnone : st.packed_syscall = none) :
    ((hw.app_fault = 1 ∨ hw.new_sp < start ∨
        satAdd hw.new_sp SVC_FRAME_SIZE > brk) →
      (switch_to_process decode start brk st m hw).reason = .Fault) ∧
    (hw.app_fault ≠ 1 →
      ¬ (hw.new_sp < start ∨ satAdd hw.new_sp SVC_FRAME_SIZE > brk) →
      hw.syscall_fired = 1 →
      ¬ (read16 hw.mem (wrapSub (read32 hw.mem (hw.new_sp + 24)) 2) % 256 = 0xfe ∧
          0 < read32 hw.mem hw.new_sp) →
      (∀ s, decode
          (read16 hw.mem (wrapSub (read32 hw.mem (hw.new_sp + 24)) 2) % 256)
          (read32 hw.mem hw.new_sp) (read32 hw.mem (hw.new_sp + 4))
          (read32 hw.mem (hw.new_sp + 8)) (read32 hw.mem (hw.new_sp + 12)) =
            some s →
        (switch_to_process decode start brk st m hw).reason = .SyscallFired s) ∧
      (decode (read16 hw.mem (wrapSub (read32 hw.mem (hw.new_sp + 24)) 2) % 256)
          (read32 hw.mem hw.new_sp) (read32 hw.mem (hw.new_sp + 4))
          (read32 hw.mem (hw.new_sp + 8)) (read32 hw.mem (hw.new_sp + 12)) =
            none →
        (switch_to_process decode start brk st m hw).reason = .Fault)) ∧
    (hw.app_fault ≠ 1 →
      ¬ (hw.new_sp < start ∨ satAdd hw.new_sp SVC_FRAME_SIZE > brk) →
      hw.syscall_fired = 1 →
      read16 hw.mem (wrapSub (read32 hw.mem (hw.new_sp + 24)) 2) % 256 = 0xfe ∧
        0 < read32 hw.mem hw.new_sp →
      (switch_to_process decode start brk st m hw).reason =
        ((next_packed_syscall decode start brk
          { regs := hw.regs
            yield_pc := read32 hw.mem (hw.new_sp + 24)
            psr := read32 hw.mem (hw.new_sp + 28)
            psp := hw.new_sp
            packed_syscall := some ⟨read32 hw.mem hw.new_sp,
              read32 hw.mem (hw.new_sp + 4),
              PackedSyscallErrorPolicy.fromUsize (read32 hw.mem (hw.new_sp + 8))⟩ }
          (write32 hw.mem hw.new_sp SyscallReturnVariant_Success)).reason).getD
          .Fault) ∧
    (hw.app_fault ≠ 1 →
      ¬ (hw.new_sp < start ∨ satAdd hw.new_sp SVC_FRAME_SIZE > brk) →
      hw.syscall_fired ≠ 1 →
      (switch_to_process decode start brk st m hw).reason = .Interrupted) := by
  refine ⟨?_, ?_, ?_, ?_⟩
  · intro h
    simp only [switch_to_process, np_none decode start brk st m hnone]
    rw [if_pos (by tauto)]
  · intro hf hv hs hns
    have hor : ¬ (hw.app_fault = 1 ∨ hw.new_sp < start ∨
        satAdd hw.new_sp SVC_FRAME_SIZE > brk) := by tauto
    constructor
    · intro s hdec
      simp only [switch_to_process, np_none decode start brk st m hnone]
      rw [if_neg hor, if_pos hs, if_neg hns, hdec]
    · intro hdec
      simp only [switch_to_process, np_none decode start brk st m hnone]
      rw [if_neg hor, if_pos hs, if_neg hns, hdec]
  · intro hf hv hs hsent
    have hor : ¬ (hw.app_fault = 1 ∨ hw.new_sp < start ∨
        satAdd hw.new_sp SVC_FRAME_SIZE > brk) := by tauto
    simp only [switch_to_process, np_none decode start brk st m hnone]
    rw [if_neg hor, if_pos hs, if_pos hsent]
  · intro hf hv hs
    have hor : ¬ (hw.app_fault = 1 ∨ hw.new_sp < start ∨
        satAdd hw.new_sp SVC_FRAME_SIZE > brk) := by tauto
    simp only [switch_to_process, np_none decode start brk st m hnone]
    rw [if_neg hor, if_neg hs]

/-- Hardware outcome with the hardware-fault flag raised. -/
def hwFault : HwSwitchResult :=
  { new_sp := 200, regs := List.replicate 8 0, app_fault := 1
    syscall_fired := 1, mem := memC1 }

/-- Hardware outcome with neither flag raised. -/
def hwIntr : HwSwitchResult :=
  { new_sp := 200, regs := List.replicate 8 0, app_fault := 0
    syscall_fired := 0, mem := memC1 }

/-- Witness for the amended claim C1: the fault flag forces `Fault` even with
a valid stack pointer and the syscall flag also set, and with neither flag
the result is `Interrupted`. -/
theorem claim_C1_witness :
    (switch_to_process decodeNot0xfe 100 300 stPlain memZ hwFault).reason =
      .Fault ∧
    (switch_to_process decodeNot0xfe 100 300 stPlain memZ hwIntr).reason =
      .Interrupted :=
  ⟨(claim_C1 decodeNot0xfe 100 300 stPlain memZ hwFault rfl).1
      (Or.inl (by decide)),
    (claim_C1 decodeNot0xfe 100 300 stPlain memZ hwIntr rfl).2.2.2
      (by decide) (by decide) (by decide)⟩

/-- Post-switch memory for the C5 counterexample: the saved `pc` slot holds
150 and the instruction before it is `svc 7`, a call number the concrete
decoder does not recognize. -/
def memC5 : Mem := fun a =>
  if a = 224 then 150
  else if a = 148 then 7
  else 0

/-- Hardware outcome for the C5 counterexample: valid stack pointer 200, no
hardware fault, syscall flag set. -/
def hwC5 : HwSwitchResult :=
  { new_sp := 200, regs := List.replicate 8 0, app_fault := 0
    syscall_fired := 1, mem := memC5 }

/-- Counterexample to claim C5 as stated: the exit is classified `Fault`
(unrecognized call), yet the stored `yield_pc` was still updated from the
hardware frame (150 replaces the previous 9), so the two fields are not left
unchanged on every non-`SyscallFired` classification. -/
theorem claim_C5_cex :
    (switch_to_process decodeNone 100 300 stPlain memZ hwC5).reason = .Fault ∧
    (switch_to_process decodeNone 100 300 stPlain memZ hwC5).state.yield_pc =
      150 ∧
    stPlain.yield_pc = 9 := by
  refine ⟨?_, ?_, rfl⟩ <;> decide

/-- Claim C5, amended: after a real context switch, the stored `yield_pc`
(resume pc) and `psr` (status register) are updated from the hardware frame
exactly when the syscall branch is entered — the syscall flag was set and
neither the hardware-fault flag nor an out-of-bounds stack pointer forced
`Fault` — even if the final classification is `Fault` (unrecognized call) or
comes from the batch-start sentinel; on a hardware-fault or bad-stack-pointer
`Fault` and on `Interrupted` the two fields are left unchanged. -/
theorem claim_C5 (decode : Decode) (start brk : Nat) (st : CortexMStoredState)
    (m : Mem) (hw : HwSwitchResult) (hnone : st.packed_syscall = none) :
    ((hw.app_fault = 1 ∨ hw.new_sp < start ∨
        satAdd hw.new_sp SVC_FRAME_SIZE > brk) →
      (switch_to_process decode start brk st m hw).state.yield_pc =
        st.yield_pc ∧
      (switch_to_process decode start brk st m hw).state.psr = st.psr) ∧
    (hw.app_fault ≠ 1 →
      ¬ (hw.new_sp < start ∨ satAdd hw.new_sp SVC_FRAME_SIZE > brk) →
      hw.syscall_fired = 1 →
      (switch_to_process decode start brk st m hw).state.yield_pc =
        read32 hw.mem (hw.new_sp + 24) ∧
      (switch_to_process decode start brk st m hw).state.psr =
        read32 hw.mem (hw.new_sp + 28)) ∧
    (hw.app_fault ≠ 1 →
      ¬ (hw.new_sp < start ∨ satAdd hw.new_sp SVC_FRAME_SIZE > brk) →
      hw.syscall_fired ≠ 1 →
      (switch_to_process decode start brk st m hw).state.yield_pc =
        st.yield_pc ∧
      (switch_to_process decode start brk st m hw).state.psr = st.psr) := by
  refine ⟨?_, ?_, ?_⟩
  · intro h
    simp only [switch_to_process, np_none decode start brk st m hnone]
    rw [if_pos (by tauto)]
    exact ⟨rfl, rfl⟩
  · intro hf hv hs
    have hor : ¬ (hw.app_fault = 1 ∨ hw.new_sp < start ∨
        satAdd hw.new_sp SVC_FRAME_SIZE > brk) := by tauto
    simp only [switch_to_process, np_none decode start brk st m hnone]
    rw [if_neg hor, if_pos hs]
    by_cases hns : read16 hw.mem (wrapSub (read32 hw.mem (hw.new_sp + 24)) 2)
        % 256 = 0xfe ∧ 0 < read32 hw.mem hw.new_sp
    · rw [if_pos hns]
      rw [np_state_eq]
      exact ⟨rfl, rfl⟩
    · rw [if_neg hns]
      rcases hdec : decode
          (read16 hw.mem (wrapSub (read32 hw.mem (hw.new_sp + 24)) 2) % 256)
          (read32 hw.mem hw.new_sp) (read32 hw.mem (hw.new_sp + 4))
          (read32 hw.mem (hw.new_sp + 8)) (read32 hw.mem (hw.new_sp + 12))
          with _ | s
      · exact ⟨rfl, rfl⟩
      · exact ⟨rfl, rfl⟩
  · intro hf hv hs
    have hor : ¬ (hw.app_fault = 1 ∨ hw.new_sp < start ∨
        satAdd hw.new_sp SVC_FRAME_SIZE > brk) := by tauto
    simp only [switch_to_process, np_none decode start brk st m hnone]
    rw [if_neg hor, if_neg hs]
    exact ⟨rfl, rfl⟩

/-- Witness for the amended claim C5: on the syscall branch the fields are
updated from the frame even though the classification is `Fault`, and on the
interrupted path they stay at their old values. -/
theorem claim_C5_witness :
    ((switch_to_process decodeNone 100 300 stPlain memZ hwC5).state.yield_pc =
        read32 hwC5.mem (hwC5.new_sp + 24) ∧
      (switch_to_process decodeNone 100 300 stPlain memZ hwC5).state.psr =
        read32 hwC5.mem (hwC5.new_sp + 28)) ∧
    ((switch_to_process decodeNone 100 300 stPlain memZ hwIntr).state.yield_pc =
        stPlain.yield_pc ∧
      (switch_to_process decodeNone 100 300 stPlain memZ hwIntr).state.psr =
        stPlain.psr) :=
  ⟨(claim_C5 decodeNone 100 300 stPlain memZ hwC5 rfl).2.1
      (by decide) (by decide) (by decide),
    (claim_C5 decodeNone 100 300 stPlain memZ hwIntr rfl).2.2
      (by decide) (by decide) (by decide)⟩

/-- A buffer byte is always below 256. -/
theorem byteAt_lt (l : List Nat) (j : Nat) : byteAt l j < 256 :=
  Nat.mod_lt _ (by norm_num)

/-- Setting position `i` changes byte `i` to `v % 256`. -/
theorem byteAt_set_self (l : List Nat) (i v : Nat) (h : i < l.length) :
    byteAt (l.set i v) i = v % 256 := by
  unfold byteAt
  rw [List.getD_eq_getElem _ 0 (by simpa using h)]
  simp [List.getElem_set_self]

/-- Setting position `i` leaves every other byte unchanged. -/
theorem byteAt_set_ne (l : List Nat) (i v j : Nat) (h : j ≠ i) :
    byteAt (l.set i v) j = byteAt l j := by
  unfold byteAt
  simp [List.getD, List.get?_eq_getElem?,
    List.getElem?_set_ne (show i ≠ j by omega)]

/-- Corrupting one byte inside word `k` with a different byte value changes
the decoded word `k`. -/
theorem wordAt_set_ne (l : List Nat) (i v k : Nat) (hi : i < l.length)
    (hk1 : 4 * k ≤ i) (hk2 : i < 4 * k + 4) (hb : l.getD i 0 < 256)
    (hv : v < 256) (hne : v ≠ l.getD i 0) :
    wordAt (l.set i v) k ≠ wordAt l k := by
  intro heq
  have hvv : v % 256 = v := Nat.mod_eq_of_lt hv
  have hbb : byteAt l i = l.getD i 0 := by
    unfold byteAt
    exact Nat.mod_eq_of_lt hb
  have b0 := byteAt_lt l (4 * k)
  have b1 := byteAt_lt l (4 * k + 1)
  have b2 := byteAt_lt l (4 * k + 2)
  have b3 := byteAt_lt l (4 * k + 3)
  rcases (by omega : i = 4 * k ∨ i = 4 * k + 1 ∨ i = 4 * k + 2 ∨ i = 4 * k + 3)
      with h | h | h | h <;> subst h <;>
    unfold wordAt at heq
  · rw [byteAt_set_self l _ v hi, byteAt_set_ne l _ v _ (by omega),
      byteAt_set_ne l _ v _ (by omega), byteAt_set_ne l _ v _ (by omega)] at heq
    omega
  · rw [byteAt_set_ne l _ v _ (by omega), byteAt_set_self l _ v hi,
      byteAt_set_ne l _ v _ (by omega), byteAt_set_ne l _ v _ (by omega)] at heq
    omega
  · rw [byteAt_set_ne l _ v _ (by omega), byteAt_set_ne l _ v _ (by omega),
      byteAt_set_self l _ v hi, byteAt_set_ne l _ v _ (by omega)] at heq
    omega
  · rw [byteAt_set_ne l _ v _ (by omega), byteAt_set_ne l _ v _ (by omega),
      byteAt_set_ne l _ v _ (by omega), byteAt_set_self l _ v hi] at heq
    omega

/-- Claim C8: decoding a stored-state buffer fails with a `FAIL`/`SIZE`
error unless the buffer length exactly equals the expected size and the
version, size and tag words all match their fixed expected values; any
single-byte corruption of the version, size or tag field (bytes `0..12`)
makes decode fail; and every successfully decoded state has no pending
batch. -/
theorem claim_C8 :
    (∀ ss : List Nat,
      ¬ (ss.length = STORED_STATE_SIZE + METADATA_LEN * USIZE_SZ ∧
        wordAt ss VERSION_IDX = VERSION ∧
        wordAt ss SIZE_IDX = STORED_STATE_SIZE ∧
        wordAt ss TAG_IDX = TAG_WORD) →
      try_from ss = .error .FAIL) ∧
    (∀ (ss : List Nat) (st : CortexMStoredState),
      try_from ss = .ok st → st.packed_syscall = none) ∧
    (∀ (ss : List Nat) (st : CortexMStoredState) (i v : Nat),
      try_from ss = .ok st → i < METADATA_LEN * USIZE_SZ → v < 256 →
      (∀ b ∈ ss, b < 256) → v ≠ ss.getD i 0 →
      try_from (ss.set i v) = .error .FAIL) := by
  refine ⟨?_, ?_, ?_⟩
  · intro ss h
    simp only [try_from, if_neg h]
  · intro ss st h
    revert h
    simp only [try_from]
    split
    · intro h
      cases h
      rfl
    · intro h
      exact Except.noConfusion h
  · intro ss st i v h hi hv hb hne
    have hcond : ss.length = STORED_STATE_SIZE + METADATA_LEN * USIZE_SZ ∧
        wordAt ss VERSION_IDX = VERSION ∧
        wordAt ss SIZE_IDX = STORED_STATE_SIZE ∧
        wordAt ss TAG_IDX = TAG_WORD := by
      by_cases hc : ss.length = STORED_STATE_SIZE + METADATA_LEN * USIZE_SZ ∧
          wordAt ss VERSION_IDX = VERSION ∧
          wordAt ss SIZE_IDX = STORED_STATE_SIZE ∧
          wordAt ss TAG_IDX = TAG_WORD
      · exact hc
      · rw [show try_from ss = .error .FAIL from by
          simp only [try_from, if_neg hc]] at h
        exact Except.noConfusion h
    obtain ⟨hlen, h0, h1, h2⟩ := hcond
    simp only [STORED_STATE_SIZE, METADATA_LEN, USIZE_SZ] at hlen hi
    have hilen : i < ss.length := by omega
    have hbdi : ss.getD i 0 < 256 := by
      rw [List.getD_eq_getElem ss 0 (by simpa using hilen)]
      exact hb _ (List.getElem_mem _)
    have hwne : wordAt (ss.set i v) (i / 4) ≠ wordAt ss (i / 4) :=
      wordAt_set_ne ss i v (i / 4) hilen (by omega) (by omega) hbdi hv hne
    have hcset : ¬ ((ss.set i v).length =
          STORED_STATE_SIZE + METADATA_LEN * USIZE_SZ ∧
        wordAt (ss.set i v) VERSION_IDX = VERSION ∧
        wordAt (ss.set i v) SIZE_IDX = STORED_STATE_SIZE ∧
        wordAt (ss.set i v) TAG_IDX = TAG_WORD) := by
      rintro ⟨hl', h0', h1', h2'⟩
      simp only [VERSION_IDX, SIZE_IDX, TAG_IDX] at h0 h1 h2 h0' h1' h2'
      rcases (by omega : i / 4 = 0 ∨ i / 4 = 1 ∨ i / 4 = 2) with hk | hk | hk <;>
        rw [hk] at hwne
      · exact hwne (h0'.trans h0.symm)
      · exact hwne (h1'.trans h1.symm)
      · exact hwne (h2'.trans h2.symm)
    simp only [try_from, if_neg hcset]

/-- A well-formed 68-byte stored-state buffer: version 1, size 56, tag
`"ctxm"`, all data fields zero. -/
def bufGood : List Nat :=
  [1, 0, 0, 0, 56, 0, 0, 0, 0x63, 0x74, 0x78, 0x6d] ++ List.replicate 56 0

/-- Witness for claim C8: the all-zero-fields buffer decodes (to a state
with no pending batch), a truncated buffer is rejected, and corrupting the
version byte is rejected. -/
theorem claim_C8_witness :
    try_from (List.replicate 67 0) = .error .FAIL ∧
    (CortexMStoredState.mk (List.replicate 8 0) 0 0 0 none).packed_syscall =
      none ∧
    try_from (bufGood.set 0 2) = .error .FAIL := by
  refine ⟨claim_C8.1 (List.replicate 67 0) (by decide), ?_, ?_⟩
  · exact claim_C8.2.1 bufGood
      (CortexMStoredState.mk (List.replicate 8 0) 0 0 0 none) (by rfl)
  · exact claim_C8.2.2 bufGood
      (CortexMStoredState.mk (List.replicate 8 0) 0 0 0 none) 0 2 (by rfl)
      (by decide) (by decide) (by decide) (by decide)

/-- A buffer decomposes around any 4-byte window. -/
theorem take_getD_drop_eq (l : List Nat) (n : Nat) (h : n + 4 ≤ l.length) :
    l.take n ++ [l.getD n 0, l.getD (n + 1) 0, l.getD (n + 2) 0,
      l.getD (n + 3) 0] ++ l.drop (n + 4) = l := by
  have e0 : l.drop n = l.getD n 0 :: l.drop (n + 1) := by
    rw [List.drop_eq_getElem_cons (by omega), List.getD_eq_getElem l 0 (by omega)]
  have e1 : l.drop (n + 1) = l.getD (n + 1) 0 :: l.drop (n + 2) := by
    rw [List.drop_eq_getElem_cons (by omega), List.getD_eq_getElem l 0 (by omega)]
  have e2 : l.drop (n + 2) = l.getD (n + 2) 0 :: l.drop (n + 3) := by
    rw [List.drop_eq_getElem_cons (by omega), List.getD_eq_getElem l 0 (by omega)]
  have e3 : l.drop (n + 3) = l.getD (n + 3) 0 :: l.drop (n + 4) := by
    rw [List.drop_eq_getElem_cons (by omega), List.getD_eq_getElem l 0 (by omega)]
  conv_rhs => rw [← List.take_append_drop n l, e0, e1, e2, e3]
  simp

/-- Every `getD` read of an all-bytes buffer at a valid index is a byte. -/
theorem getD_lt_of_bytes {l : List Nat} (hb : ∀ b ∈ l, b < 256) {i : Nat}
    (hi : i < l.length) : l.getD i 0 < 256 := by
  rw [List.getD_eq_getElem l 0 (by simpa using hi)]
  exact hb _ (List.getElem_mem _)

/-- Re-serializing the word decoded from a 4-byte window reproduces those
four bytes. -/
theorem wordLE_wordAt (l : List Nat) (idx : Nat)
    (h0 : l.getD (4 * idx) 0 < 256) (h1 : l.getD (4 * idx + 1) 0 < 256)
    (h2 : l.getD (4 * idx + 2) 0 < 256) (h3 : l.getD (4 * idx + 3) 0 < 256) :
    wordLE (wordAt l idx) = [l.getD (4 * idx) 0, l.getD (4 * idx + 1) 0,
      l.getD (4 * idx + 2) 0, l.getD (4 * idx + 3) 0] := by
  unfold wordLE wordAt byteAt
  simp only [List.cons.injEq, and_true]
  refine ⟨by omega, by omega, by omega, by omega⟩

/-- Writing back the word read at index `idx` is the identity splice. -/
theorem write_wordAt_self (l : List Nat) (idx : Nat)
    (h : 4 * idx + 4 ≤ l.length) (hb : ∀ b ∈ l, b < 256) :
    write_usize_to_u8_slice (wordAt l idx) l idx = l := by
  unfold write_usize_to_u8_slice
  rw [wordLE_wordAt l idx (getD_lt_of_bytes hb (by omega))
    (getD_lt_of_bytes hb (by omega)) (getD_lt_of_bytes hb (by omega))
    (getD_lt_of_bytes hb (by omega))]
  exact take_getD_drop_eq l (4 * idx) h

/-- An in-range splice preserves the buffer length. -/
theorem write_length (v : Nat) (l : List Nat) (idx : Nat)
    (h : 4 * idx + 4 ≤ l.length) :
    (write_usize_to_u8_slice v l idx).length = l.length := by
  simp only [write_usize_to_u8_slice, wordLE, List.length_append,
    List.length_take, List.length_cons, List.length_nil, List.length_drop]
  omega

/-- A splice entirely below byte 56 leaves the suffix from byte 56 alone. -/
theorem write_drop56 (v : Nat) (l : List Nat) (idx : Nat)
    (hidx : 4 * idx + 4 ≤ 56) (hlen : 56 ≤ l.length) :
    (write_usize_to_u8_slice v l idx).drop 56 = l.drop 56 := by
  unfold write_usize_to_u8_slice
  rw [List.drop_append_eq_append_drop, List.drop_append_eq_append_drop]
  have hta : (l.take (4 * idx)).length = 4 * idx := by
    simp only [List.length_take]
    omega
  have h1 : (l.take (4 * idx)).drop 56 = [] := by
    apply List.drop_eq_nil_of_le
    omega
  have h2 : (wordLE v).drop (56 - (l.take (4 * idx)).length) = [] := by
    apply List.drop_eq_nil_of_le
    simp only [wordLE, List.length_cons, List.length_nil, hta]
    omega
  rw [h1, h2]
  simp only [List.nil_append, List.length_append, hta, wordLE,
    List.length_cons, List.length_nil, List.drop_drop]
  congr 1
  omega

/-- Writing back, in order, register words that all equal the words already
stored in the buffer is the identity. -/
theorem foldl_write_id (l : List Nat) (hb : ∀ b ∈ l, b < 256) :
    ∀ (regs : List Nat) (n : Nat),
      (∀ i, i < regs.length → regs.getD i 0 = wordAt l (REGS_IDX + (n + i))) →
      4 * (REGS_IDX + n + regs.length) ≤ l.length →
      (regs.enumFrom n).foldl
        (fun acc iv => write_usize_to_u8_slice iv.2 acc (REGS_IDX + iv.1)) l = l
  | [], _, _, _ => rfl
  | r :: rest, n, hv, hlen => by
    have hr : r = wordAt l (REGS_IDX + n) := by
      have h := hv 0 (by simp)
      simpa using h
    have hw : write_usize_to_u8_slice (wordAt l (REGS_IDX + n)) l
        (REGS_IDX + n) = l := by
      apply write_wordAt_self l (REGS_IDX + n) ?_ hb
      simp only [List.length_cons, REGS_IDX] at hlen ⊢
      omega
    simp only [List.enumFrom, List.foldl_cons]
    rw [hr, hw]
    apply foldl_write_id l hb rest (n + 1)
    · intro i hi
      have h := hv (i + 1) (by simp only [List.length_cons]; omega)
      have e : REGS_IDX + (n + (i + 1)) = REGS_IDX + (n + 1 + i) := by omega
      rw [e] at h
      simpa using h
    · simp only [List.length_cons] at hlen
      omega

/-- Writing register words in order below byte 56 preserves the buffer
length and the suffix from byte 56. -/
theorem foldl_write_drop (regs : List Nat) :
    ∀ (n : Nat) (l : List Nat),
      4 * (REGS_IDX + n + regs.length) ≤ 56 → 56 ≤ l.length →
      ((regs.enumFrom n).foldl
          (fun acc iv => write_usize_to_u8_slice iv.2 acc (REGS_IDX + iv.1))
          l).length = l.length ∧
      ((regs.enumFrom n).foldl
          (fun acc iv => write_usize_to_u8_slice iv.2 acc (REGS_IDX + iv.1))
          l).drop 56 = l.drop 56 := by
  induction regs with
  | nil => exact fun n l _ _ => ⟨rfl, rfl⟩
  | cons r rest ih =>
    intro n l hn hlen
    simp only [List.length_cons] at hn
    have hidx : 4 * (REGS_IDX + n) + 4 ≤ 56 := by
      simp only [REGS_IDX] at hn ⊢
      omega
    have hl1 : (write_usize_to_u8_slice r l (REGS_IDX + n)).length = l.length :=
      write_length r l (REGS_IDX + n) (by omega)
    have hd1 : (write_usize_to_u8_slice r l (REGS_IDX + n)).drop 56 =
        l.drop 56 := write_drop56 r l (REGS_IDX + n) hidx hlen
    simp only [List.enumFrom, List.foldl_cons]
    obtain ⟨ihl, ihd⟩ := ih (n + 1) (write_usize_to_u8_slice r l (REGS_IDX + n))
      (by omega) (by omega)
    exact ⟨ihl.trans hl1, ihd.trans hd1⟩

/-- Eliminating a successful decode: the buffer checks all passed and the
state is the decoded record. -/
theorem try_from_ok_elim (ss : List Nat) (st : CortexMStoredState)
    (h : try_from ss = .ok st) :
    ss.length = STORED_STATE_SIZE + METADATA_LEN * USIZE_SZ ∧
    wordAt ss VERSION_IDX = VERSION ∧
    wordAt ss SIZE_IDX = STORED_STATE_SIZE ∧
    wordAt ss TAG_IDX = TAG_WORD ∧
    st = { regs := (List.range 8).map (fun i => wordAt ss (REGS_IDX + i))
           yield_pc := wordAt ss YIELDPC_IDX
           psr := wordAt ss PSR_IDX
           psp := wordAt ss PSP_IDX
           packed_syscall := none } := by
  revert h
  simp only [try_from]
  split
  · intro h
    cases h
    next hc => exact ⟨hc.1, hc.2.1, hc.2.2.1, hc.2.2.2, rfl⟩
  · intro h
    exact Except.noConfusion h

/-- Bundled length/suffix preservation of a single below-56 splice. -/
theorem write_ld (v : Nat) (l : List Nat) (idx : Nat)
    (hidx : 4 * idx + 4 ≤ 56) (hlen : 56 ≤ l.length) :
    (write_usize_to_u8_slice v l idx).length = l.length ∧
    56 ≤ (write_usize_to_u8_slice v l idx).length ∧
    (write_usize_to_u8_slice v l idx).drop 56 = l.drop 56 :=
  ⟨write_length v l idx (by omega),
    by
      rw [write_length v l idx (by omega)]
      exact hlen,
    write_drop56 v l idx hidx hlen⟩

/-- Claim C9: for every byte buffer that decodes successfully (exact expected
size, correct version, size and tag words), encoding the decoded state back
into the same buffer reproduces it unchanged and returns exactly 56, the
number of bytes encode writes; on any large-enough destination buffer,
encoding a decoded state returns 56 and touches only the first 56 bytes. -/
theorem claim_C9 :
    (∀ (ss : List Nat) (st : CortexMStoredState),
      try_from ss = .ok st → (∀ b ∈ ss, b < 256) →
      store_context st ss = .ok (56, ss)) ∧
    (∀ (ss out : List Nat) (st : CortexMStoredState),
      try_from ss = .ok st →
      STORED_STATE_SIZE + 3 * USIZE_SZ ≤ out.length →
      ∃ out', store_context st out = .ok (56, out') ∧
        out'.length = out.length ∧ out'.drop 56 = out.drop 56) := by
  constructor
  · intro ss st h hb
    obtain ⟨hlen, h0, h1, h2, hst⟩ := try_from_ok_elim ss st h
    subst hst
    have hlen68 : ss.length = 68 := by
      simpa [STORED_STATE_SIZE, METADATA_LEN, USIZE_SZ] using hlen
    have hguard : STORED_STATE_SIZE + 3 * USIZE_SZ ≤ ss.length := by
      simp only [STORED_STATE_SIZE, USIZE_SZ]
      omega
    simp only [store_context, if_pos hguard]
    rw [show write_usize_to_u8_slice VERSION ss VERSION_IDX = ss from by
        rw [← h0]
        exact write_wordAt_self ss VERSION_IDX (by simp only [VERSION_IDX]; omega) hb,
      show write_usize_to_u8_slice STORED_STATE_SIZE ss SIZE_IDX = ss from by
        rw [← h1]
        exact write_wordAt_self ss SIZE_IDX (by simp only [SIZE_IDX]; omega) hb,
      show write_usize_to_u8_slice TAG_WORD ss TAG_IDX = ss from by
        rw [← h2]
        exact write_wordAt_self ss TAG_IDX (by simp only [TAG_IDX]; omega) hb,
      show write_usize_to_u8_slice (wordAt ss YIELDPC_IDX) ss YIELDPC_IDX = ss from
        write_wordAt_self ss YIELDPC_IDX (by simp only [YIELDPC_IDX]; omega) hb,
      show write_usize_to_u8_slice (wordAt ss PSR_IDX) ss PSR_IDX = ss from
        write_wordAt_self ss PSR_IDX (by simp only [PSR_IDX]; omega) hb,
      show write_usize_to_u8_slice (wordAt ss PSP_IDX) ss PSP_IDX = ss from
        write_wordAt_self ss PSP_IDX (by simp only [PSP_IDX]; omega) hb]
    have hv : ∀ i, i < ((List.range 8).map
        (fun i => wordAt ss (REGS_IDX + i))).length →
        ((List.range 8).map (fun i => wordAt ss (REGS_IDX + i))).getD i 0 =
          wordAt ss (REGS_IDX + (0 + i)) := by
      intro i hi
      simp only [List.length_map, List.length_range] at hi
      rw [List.getD_eq_getElem _ 0 (by simpa using hi)]
      simp [Nat.zero_add]
    have hfold := foldl_write_id ss hb
      ((List.range 8).map (fun i => wordAt ss (REGS_IDX + i))) 0 hv
      (by simp only [List.length_map, List.length_range, REGS_IDX]; omega)
    rw [show ((List.range 8).map (fun i => wordAt ss (REGS_IDX + i))).enum =
        ((List.range 8).map (fun i => wordAt ss (REGS_IDX + i))).enumFrom 0
      from rfl, hfold]
    simp [List.length_map, List.length_range, METADATA_LEN, USIZE_SZ]
  · intro ss out st h hout
    obtain ⟨hlen, h0, h1, h2, hst⟩ := try_from_ok_elim ss st h
    subst hst
    have hout56 : 56 ≤ out.length := by
      simp only [STORED_STATE_SIZE, USIZE_SZ] at hout
      omega
    simp only [store_context, if_pos hout]
    obtain ⟨l1, g1, d1⟩ := write_ld VERSION out VERSION_IDX
      (by simp only [VERSION_IDX]; omega) hout56
    obtain ⟨l2, g2, d2⟩ := write_ld STORED_STATE_SIZE _ SIZE_IDX
      (by simp only [SIZE_IDX]; omega) g1
    obtain ⟨l3, g3, d3⟩ := write_ld TAG_WORD _ TAG_IDX
      (by simp only [TAG_IDX]; omega) g2
    obtain ⟨l4, g4, d4⟩ := write_ld (wordAt ss YIELDPC_IDX) _ YIELDPC_IDX
      (by simp only [YIELDPC_IDX]; omega) g3
    obtain ⟨l5, g5, d5⟩ := write_ld (wordAt ss PSR_IDX) _ PSR_IDX
      (by simp only [PSR_IDX]; omega) g4
    obtain ⟨l6, g6, d6⟩ := write_ld (wordAt ss PSP_IDX) _ PSP_IDX
      (by simp only [PSP_IDX]; omega) g5
    obtain ⟨lf, df⟩ := foldl_write_drop
      ((List.range 8).map (fun i => wordAt ss (REGS_IDX + i))) 0 _
      (by simp only [List.length_map, List.length_range, REGS_IDX]; omega) g6
    rw [show ((List.range 8).map (fun i => wordAt ss (REGS_IDX + i))).enum =
        ((List.range 8).map (fun i => wordAt ss (REGS_IDX + i))).enumFrom 0
      from rfl,
      show (((List.range 8).map (fun i => wordAt ss (REGS_IDX + i))).length +
        3 + METADATA_LEN) * USIZE_SZ = 56 from by
        simp [List.length_map, List.length_range, METADATA_LEN, USIZE_SZ]]
    refine ⟨_, rfl, ?_, ?_⟩
    · exact lf.trans (l6.trans (l5.trans (l4.trans (l3.trans (l2.trans l1)))))
    · exact df.trans (d6.trans (d5.trans (d4.trans (d3.trans (d2.trans d1)))))

/-- Witness for claim C9: the concrete well-formed buffer round-trips, and
encoding its decoded state into a fresh 68-byte buffer returns 56 and leaves
the last 12 bytes alone. -/
theorem claim_C9_witness :
    store_context (CortexMStoredState.mk (List.replicate 8 0) 0 0 0 none)
      bufGood = .ok (56, bufGood) ∧
    ∃ out', store_context (CortexMStoredState.mk (List.replicate 8 0) 0 0 0 none)
        (List.replicate 68 7) = .ok (56, out') ∧
      out'.length = (List.replicate 68 7 : List Nat).length ∧
      out'.drop 56 = (List.replicate 68 7 : List Nat).drop 56 :=
  ⟨claim_C9.1 bufGood _ (by rfl) (by decide),
    claim_C9.2 bufGood (List.replicate 68 7) _ (by rfl) (by decide)⟩

end CortexMSyscall
